import Mathlib

set_option maxRecDepth 100000

/-!
Verification of the NEEMIFY licensing and authorization core.

This development shallowly embeds the TypeScript sources:
  * `src/services/licensing.service.ts` (cryptographic codec, license
    lifecycle manager),
  * `src/services/company.service.ts` (RBAC engine),
  * `src/services/auth.service.ts` and `src/services/user.service.ts`
    (user creation, super-user bootstrap),
  * `src/middleware/rate-limit.middleware.ts` (`authenticate` pipeline).

JavaScript strings are modelled as lists of characters, the relational
store as lists of rows with explicit state passing, thrown exceptions as
`Except`, and the AES-256-GCM / HMAC-SHA256 / JSON primitives as an
abstract `CryptoPrims` record whose relevant properties (hex output,
decryption inverting encryption, deserialization inverting
serialization) are taken as hypotheses where a theorem needs them.
-/

namespace Neemify

/-- JavaScript strings are modelled as lists of characters. -/
abbrev Str := List Char

/-- Embed a Lean string literal as a character list. -/
def str (s : String) : Str := s.data

/-- Number of `'.'` characters in a string; `s.split('.')` returns
`countDots s + 1` pieces. -/
def countDots : Str → Nat
  | [] => 0
  | c :: rest => (if c = '.' then 1 else 0) + countDots rest

/-- Accumulator-based splitting on `'.'`, mirroring JavaScript
`String.prototype.split('.')` (empty pieces are kept). -/
def splitDotsAux : Str → Str → List Str
  | [], acc => [acc.reverse]
  | c :: rest, acc =>
    if c = '.' then acc.reverse :: splitDotsAux rest [] else splitDotsAux rest (c :: acc)

/-- `splitDots s` models `s.split('.')`. -/
def splitDots (s : Str) : List Str := splitDotsAux s []

/-- Lowercase hexadecimal digit, the output alphabet of
`Buffer.toString('hex')` and `hmac.digest('hex')`. -/
def isLowerHexDigit (c : Char) : Bool :=
  c.isDigit || (decide ('a' ≤ c) && decide (c ≤ 'f'))

/-- All characters are hexadecimal digits. -/
def isHexStr (s : Str) : Bool := s.all isLowerHexDigit

/-- UTF-8 byte length of a string, as used by `Buffer.from(string)`. -/
def byteLen (s : Str) : Nat := (s.map Char.utf8Size).sum

/-- `crypto.timingSafeEqual` on two UTF-8 buffers: throws a `RangeError`
when the byte lengths differ, otherwise compares contents. -/
def timingSafeEqual (a b : Str) : Except Str Bool :=
  if byteLen a = byteLen b then .ok (decide (a = b))
  else .error (str "Input buffers must have the same byte length")

/-- `LicenseFeatures` from `src/types/index.ts`. -/
structure LicenseFeatures where
  max_users : Option Nat
  max_tenants : Option Nat
  api_rate_limit : Option Nat
  enabled_modules : List Str
  custom_features : List (Str × Bool)
deriving DecidableEq

/-- `LicensePayload` from `licensing.service.ts`: the plaintext structure
encrypted inside a license key. -/
structure LicensePayload where
  companyId : Str
  companyName : Str
  features : LicenseFeatures
  issuedAt : Nat
  expiresAt : Option Nat
  nonce : Str
deriving DecidableEq

/-- Abstract cryptographic / serialization primitives used by
`LicensingService`.  `encrypt`/`decrypt`/`authTag` model AES-256-GCM under
the (fixed) derived encryption key, with the IV passed explicitly; `hmac`
models HMAC-SHA256 under the derived signing key with hex output;
`serialize`/`deserialize` model `JSON.stringify`/`JSON.parse`. -/
structure CryptoPrims where
  encrypt : Str → Str → Str
  decrypt : Str → Str → Str
  authTag : Str → Str → Str
  hmac : Str → Str
  serialize : LicensePayload → Str
  deserialize : Str → Option LicensePayload

/-- `LicenseStatus` enum. -/
inductive LicenseStatus where
  | active
  | expired
  | suspended
  | revoked
deriving DecidableEq

/-- A row of the `licenses` table. -/
structure LicenseRow where
  id : Str
  company_id : Str
  license_key : Str
  status : LicenseStatus
  features : LicenseFeatures
  issued_at : Nat
  expires_at : Option Nat
  revoked_at : Option Nat
  signature : Str
deriving DecidableEq

/-- A row of the `companies` table (fields relevant to the core). -/
structure CompanyRow where
  id : Str
  name : Str
  domain : Str
  license_key : Str
  license_status : LicenseStatus
deriving DecidableEq

/-- A row of the `users` table (fields relevant to the core). -/
structure UserRow where
  id : Str
  email : Str
  full_name : Str
  password_hash : Str
  company_id : Str
  tenant_id : Option Str
  is_super_user : Bool
  is_org_admin : Bool
deriving DecidableEq

/-- A row of the `tenants` table (fields relevant to the core). -/
structure TenantRow where
  id : Str
  parent_company_id : Str
  name : Str
  is_active : Bool
deriving DecidableEq

/-- A row of the `roles` table. -/
structure RoleRow where
  id : Str
  company_id : Str
  name : Str
  description : Str
deriving DecidableEq

/-- A row of the `permissions` table. -/
structure PermissionRow where
  id : Str
  name : Str
  resource : Str
  action : Str
deriving DecidableEq

/-- A row of the `role_permissions` join table. -/
structure RolePermissionRow where
  role_id : Str
  permission_id : Str
deriving DecidableEq

/-- A row of the `user_roles` join table. -/
structure UserRoleRow where
  user_id : Str
  role_id : Str
  assigned_by : Str
deriving DecidableEq

/-- The relational store backing the services. -/
structure Store where
  users : List UserRow
  companies : List CompanyRow
  tenants : List TenantRow
  licenses : List LicenseRow
  roles : List RoleRow
  permissions : List PermissionRow
  role_permissions : List RolePermissionRow
  user_roles : List UserRoleRow
deriving DecidableEq

/-- PostgREST `.single()`: yields the row when the filtered result has
exactly one row, and an error (modelled as `none`) otherwise. -/
def singleRow {α : Type} : List α → Option α
  | [x] => some x
  | _ => none

/-- `.from('users').eq('id', id).single()`. -/
def findUser (st : Store) (id : Str) : Option UserRow :=
  singleRow (st.users.filter (fun u => decide (u.id = id)))

/-- `.from('companies').eq('id', id).single()`. -/
def findCompany (st : Store) (id : Str) : Option CompanyRow :=
  singleRow (st.companies.filter (fun co => decide (co.id = id)))

/-- `.from('tenants').eq('id', id).single()`. -/
def findTenant (st : Store) (id : Str) : Option TenantRow :=
  singleRow (st.tenants.filter (fun t => decide (t.id = id)))

/-- `.from('roles').eq('id', id).single()`. -/
def findRole (st : Store) (id : Str) : Option RoleRow :=
  singleRow (st.roles.filter (fun r => decide (r.id = id)))

/-- Foreign-key join from a `role_permissions.permission_id` to its
`permissions` row. -/
def findPerm (st : Store) (id : Str) : Option PermissionRow :=
  singleRow (st.permissions.filter (fun p => decide (p.id = id)))

/-- `.from('licenses').eq('license_key', key).single()`. -/
def findLicenseByKey (st : Store) (key : Str) : Option LicenseRow :=
  singleRow (st.licenses.filter (fun l => decide (l.license_key = key)))

/-- `.from('licenses').eq('id', id).single()`. -/
def findLicenseById (st : Store) (id : Str) : Option LicenseRow :=
  singleRow (st.licenses.filter (fun l => decide (l.id = id)))

/-- `LicensingService.encryptPayload` (licensing.service.ts:228-240): the
fresh random IV of `crypto.randomBytes(16).toString('hex')` is passed in
explicitly; returns `iv.ciphertext.authTag` in hex. -/
def encryptPayload (c : CryptoPrims) (iv : Str) (payload : LicensePayload) : Str :=
  let payloadJson := c.serialize payload
  let encrypted := c.encrypt iv payloadJson
  let authTag := c.authTag iv payloadJson
  iv ++ str "." ++ encrypted ++ str "." ++ authTag

/-- `LicensingService.decryptPayload` (licensing.service.ts:245-262).
Throwing is modelled by `Except` with Node's error messages; the GCM
authentication check of `decipher.final()` compares the supplied tag with
the tag of the decrypted plaintext. -/
def decryptPayload (c : CryptoPrims) (encrypted : Str) : Except Str LicensePayload :=
  match splitDots encrypted with
  | [ivHex, encryptedData, authTagHex] =>
    let decrypted := c.decrypt ivHex encryptedData
    if c.authTag ivHex decrypted = authTagHex then
      match c.deserialize decrypted with
      | some payload => .ok payload
      | none => .error (str "Unexpected token in JSON")
    else .error (str "Unsupported state or unable to authenticate data")
  | _ => .error (str "Invalid encrypted payload format")

/-- `LicensingService.signData`: HMAC-SHA256 with hex digest. -/
def signData (c : CryptoPrims) (data : Str) : Str := c.hmac data

/-- `LicensingService.verifySignature` (licensing.service.ts:276-279):
`crypto.timingSafeEqual(Buffer.from(signature), Buffer.from(expected))`,
which throws when the two buffers have different byte lengths. -/
def verifySignature (c : CryptoPrims) (data signature : Str) : Except Str Bool :=
  timingSafeEqual signature (signData c data)

/-- The payload built by `generateLicense` (licensing.service.ts:65-75).
`expiresInDays ? issuedAt + expiresInDays*24*60*60*1000 : undefined` uses
JavaScript truthiness, so `0` days means no expiry. -/
def licensePayloadOf (companyId companyName : Str) (features : LicenseFeatures)
    (issuedAt : Nat) (expiresInDays : Option Nat) (nonce : Str) : LicensePayload :=
  { companyId := companyId
    companyName := companyName
    features := features
    issuedAt := issuedAt
    expiresAt :=
      match expiresInDays with
      | some d => if d = 0 then none else some (issuedAt + d * 24 * 60 * 60 * 1000)
      | none => none
    nonce := nonce }

/-- `LicensingService.storeLicense` (licensing.service.ts:284-311): insert
the license row and mirror key/status onto the company row.  Row inserts
are modelled as unconditional appends (key-conflict failures of the
store are outside the model; the ids are random UUIDs). -/
def storeLicense (c : CryptoPrims) (st : Store) (licenseId companyId : Str)
    (licenseKey : Str) (features : LicenseFeatures) (expiresAt : Option Nat)
    (now : Nat) : Store :=
  let signature := signData c licenseKey
  let st1 : Store := { st with licenses := st.licenses ++
    [{ id := licenseId, company_id := companyId, license_key := licenseKey,
       status := .active, features := features, issued_at := now,
       expires_at := expiresAt, revoked_at := none, signature := signature }] }
  { st1 with companies := st1.companies.map (fun co =>
      if co.id = companyId then
        { co with license_key := licenseKey, license_status := .active }
      else co) }

/-- `LicensingService.generateLicense` (licensing.service.ts:59-90).  The
random IV, the random nonce and the fresh row UUID are passed explicitly;
`Date.now()` is the `now` parameter.  Returns the license key
`encrypted + '.' + signature` together with the updated store. -/
def generateLicense (c : CryptoPrims) (st : Store) (now : Nat)
    (iv nonce licenseId : Str) (companyId companyName : Str)
    (features : LicenseFeatures) (expiresInDays : Option Nat) : Str × Store :=
  let payload := licensePayloadOf companyId companyName features now expiresInDays nonce
  let encrypted := encryptPayload c iv payload
  let signature := signData c encrypted
  let licenseKey := encrypted ++ str "." ++ signature
  (licenseKey, storeLicense c st licenseId companyId licenseKey features payload.expiresAt now)

/-- `LicensingService.updateLicenseStatus` (licensing.service.ts:316-332):
update the license row's status, then mirror it onto the owning company. -/
def updateLicenseStatus (st : Store) (licenseId : Str) (status : LicenseStatus) : Store :=
  let st1 : Store := { st with licenses := st.licenses.map (fun l =>
    if l.id = licenseId then { l with status := status } else l) }
  let companies2 : List CompanyRow :=
    match findLicenseById st1 licenseId with
    | some license =>
      st1.companies.map (fun co =>
        if co.id = license.company_id then { co with license_status := status } else co)
    | none => st1.companies
  { st1 with companies := companies2 }

/-- The result of `validateLicense`. -/
inductive VResult where
  | valid (license : LicenseRow) (payload : LicensePayload)
  | invalid (reason : Str) (license : Option LicenseRow)
deriving DecidableEq

/-- JavaScript truthiness test `payload.expiresAt && Date.now() > payload.expiresAt`
(an `expiresAt` of `0` is falsy). -/
def expiresPast (payload : LicensePayload) (now : Nat) : Bool :=
  match payload.expiresAt with
  | some e => decide (e ≠ 0) && decide (now > e)
  | none => false

/-- Body of the `try` block of `LicensingService.validateLicense`
(licensing.service.ts:104-149); exceptions thrown inside it are `Except`
errors carrying the `Error` message. -/
def validateLicenseBody (c : CryptoPrims) (now : Nat) (st : Store)
    (licenseKey : Str) : Except Str (VResult × Store) :=
  match splitDots licenseKey with
  | [encrypted, signature] =>
    match verifySignature c encrypted signature with
    | .error e => .error e
    | .ok sigOk =>
      if sigOk then
        match decryptPayload c encrypted with
        | .error e => .error e
        | .ok payload =>
          match findLicenseByKey st licenseKey with
          | none => .ok (.invalid (str "License not found in database") none, st)
          | some license =>
            if license.status = .revoked then
              .ok (.invalid (str "License has been revoked") (some license), st)
            else if license.status = .suspended then
              .ok (.invalid (str "License is suspended") (some license), st)
            else if expiresPast payload now then
              .ok (.invalid (str "License has expired") (some license),
                   updateLicenseStatus st license.id .expired)
            else .ok (.valid license payload, st)
      else .ok (.invalid (str "Invalid license signature") none, st)
  | _ => .ok (.invalid (str "Invalid license format") none, st)

/-- `LicensingService.validateLicense` (licensing.service.ts:98-156): the
surrounding `catch` converts every thrown error into
`{valid:false, reason: 'License validation error: ' + message}`. -/
def validateLicense (c : CryptoPrims) (now : Nat) (st : Store)
    (licenseKey : Str) : VResult × Store :=
  match validateLicenseBody c now st licenseKey with
  | .ok r => r
  | .error msg => (.invalid (str "License validation error: " ++ msg) none, st)

/-- Insertion-order de-duplication keyed by `f`, as performed by a
JavaScript `Map`/`Set` populated in iteration order: an element is kept
when its key has not been seen before. -/
def dedupKeyed {α β : Type} [DecidableEq β] (f : α → β) : List α → List β → List α
  | [], _ => []
  | a :: rest, seen =>
    if f a ∈ seen then dedupKeyed f rest seen
    else a :: dedupKeyed f rest (f a :: seen)

/-- `RBACService.getRoleWithPermissions` (company.service.ts:904-932): the
role by id, and the permission rows joined through `role_permissions`
(missing joins are dropped by `.filter(Boolean)`). -/
def getRoleWithPermissions (st : Store) (roleId : Str) :
    Option RoleRow × List PermissionRow :=
  match findRole st roleId with
  | none => (none, [])
  | some role =>
    (some role,
     (st.role_permissions.filter (fun rp => decide (rp.role_id = roleId))).filterMap
       (fun rp => findPerm st rp.permission_id))

/-- The `for (const role of roles)` loop of `getUserRolesAndPermissions`:
permissions of each role, concatenated in role order. -/
def collectRolePermissions (st : Store) : List RoleRow → List PermissionRow
  | [] => []
  | role :: rest =>
    (getRoleWithPermissions st role.id).2 ++ collectRolePermissions st rest

/-- The `roles` list of `getUserRolesAndPermissions`: the user's
`user_roles` rows joined to `roles` (missing joins dropped). -/
def userRolesOf (st : Store) (userId : Str) : List RoleRow :=
  (st.user_roles.filter (fun ur => decide (ur.user_id = userId))).filterMap
    (fun ur => findRole st ur.role_id)

/-- Result of `getUserRolesAndPermissions`. -/
structure RolesAndPermissions where
  roles : List RoleRow
  permissions : List PermissionRow
deriving DecidableEq

/-- `RBACService.getUserRolesAndPermissions` (company.service.ts:956-996):
resolve the user's roles, then the permissions of every role,
de-duplicated by permission id in first-seen order (the `permissionSet` /
`permissionsMap` pair of the source). -/
def getUserRolesAndPermissions (st : Store) (userId : Str) : RolesAndPermissions :=
  let roles := userRolesOf st userId
  { roles := roles
    permissions := dedupKeyed (fun p => p.id) (collectRolePermissions st roles) [] }

/-- `RBACService.userHasPermission` (company.service.ts:1004-1018):
short-circuit `true` for the super user (`user?.is_super_user`, falsy when
the user row is missing), otherwise an exact name match over the resolved
permissions. -/
def userHasPermission (st : Store) (userId permissionName : Str) : Bool :=
  let isSuper :=
    match findUser st userId with
    | some u => u.is_super_user
    | none => false
  if isSuper then true
  else
    (getUserRolesAndPermissions st userId).permissions.any
      (fun perm => decide (perm.name = permissionName))

/-- `RBACService.assignPermissionsToRole` (company.service.ts:785-812):
delete the role's existing `role_permissions` rows, then insert one row
per permission id. -/
def assignPermissionsToRole (st : Store) (roleId : Str) (permissionIds : List Str) : Store :=
  let remaining := st.role_permissions.filter (fun rp => decide (¬ rp.role_id = roleId))
  { st with role_permissions := remaining ++
      permissionIds.map (fun pid => { role_id := roleId, permission_id := pid }) }

/-- `RBACService.createRole` (company.service.ts:741-777): insert the role
row (the fresh UUID is passed explicitly), then assign the permissions —
but only when the list is non-empty. -/
def createRole (st : Store) (roleId companyId name description : Str)
    (permissionIds : List Str) : Store :=
  let st1 : Store := { st with roles := st.roles ++
    [{ id := roleId, company_id := companyId, name := name, description := description }] }
  if permissionIds.length > 0 then assignPermissionsToRole st1 roleId permissionIds
  else st1

/-- `RBACService.assignRoleToUser` (company.service.ts:821-848): insert a
`user_roles` row; a duplicate `(user_id, role_id)` pair is a unique-key
conflict (`23505`) reported as 'Role already assigned to user'. -/
def assignRoleToUser (st : Store) (userId roleId assignedBy : Str) : Bool × Store :=
  if st.user_roles.any (fun ur => decide (ur.user_id = userId) && decide (ur.role_id = roleId)) then
    (false, st)
  else
    (true, { st with user_roles := st.user_roles ++
        [{ user_id := userId, role_id := roleId, assigned_by := assignedBy }] })

/-- Lexicographic comparison of strings by character code, for `ORDER BY`. -/
def strLeB : Str → Str → Bool
  | [], _ => true
  | _ :: _, [] => false
  | a :: as, b :: bs => if a = b then strLeB as bs else decide (a < b)

/-- `ORDER BY resource ASC, action ASC`. -/
def permOrderLe (p q : PermissionRow) : Bool :=
  if p.resource = q.resource then strLeB p.action q.action
  else strLeB p.resource q.resource

/-- Insert into a sorted list (stable insertion sort step). -/
def insertSorted {α : Type} (le : α → α → Bool) (a : α) : List α → List α
  | [] => [a]
  | b :: rest => if le a b then a :: b :: rest else b :: insertSorted le a rest

/-- Stable insertion sort, modelling the store's `ORDER BY`. -/
def sortByLe {α : Type} (le : α → α → Bool) (l : List α) : List α :=
  l.foldr (insertSorted le) []

/-- `RBACService.getAllPermissions` (company.service.ts:937-949): the full
global permission catalog, ordered by resource then action. -/
def getAllPermissions (st : Store) : List PermissionRow :=
  sortByLe permOrderLe st.permissions

/-- JavaScript `String.prototype.includes`: substring containment. -/
def strIncludes (s sub : Str) : Bool :=
  (List.range (s.length + 1)).any (fun i => decide ((s.drop i).take sub.length = sub))

/-- The Operator-role filter of `createDefaultRoles`
(company.service.ts:1095-1103): note that it tests substring containment
of `'.read'` / `'.create'` in the permission *name*, not equality of the
`action` column. -/
def operatorPermFilter (p : PermissionRow) : Bool :=
  strIncludes p.name (str ".read") || strIncludes p.name (str ".create") ||
    decide (p.name = str "api.use") || decide (p.name = str "user.read")

/-- The Viewer-role filter of `createDefaultRoles`
(company.service.ts:1107-1109). -/
def viewerPermFilter (p : PermissionRow) : Bool :=
  strIncludes p.name (str ".read") || decide (p.name = str "api.use")

/-- `RBACService.createDefaultRoles` (company.service.ts:1086-1111): seed
the Admin, Operator and Viewer roles for a new company; the three fresh
role UUIDs are passed explicitly. -/
def createDefaultRoles (st : Store) (companyId : Str)
    (adminRoleId operatorRoleId viewerRoleId : Str) : Store :=
  let allPermissions := getAllPermissions st
  let adminPermissions := allPermissions.map (fun p => p.id)
  let st1 := createRole st adminRoleId companyId (str "Admin")
    (str "Full administrative access") adminPermissions
  let operatorPermissions := (allPermissions.filter operatorPermFilter).map (fun p => p.id)
  let st2 := createRole st1 operatorRoleId companyId (str "Operator")
    (str "Operational access") operatorPermissions
  let viewerPermissions := (allPermissions.filter viewerPermFilter).map (fun p => p.id)
  createRole st2 viewerRoleId companyId (str "Viewer")
    (str "Read-only access") viewerPermissions

/-- The JWT payload carried by a bearer token (`JwtPayload` in
`src/types/index.ts`). -/
structure JwtPayload where
  userId : Str
  email : Str
  companyId : Str
  tenantId : Option Str
  isSuperUser : Bool
  isOrgAdmin : Bool
  permissions : List Str
deriving DecidableEq

/-- The per-request context assembled by `authenticate`
(`RequestContext`); `permissions` models the `Set` of permission names. -/
structure RequestContext where
  user : UserRow
  company : CompanyRow
  tenant : Option TenantRow
  license : Option LicenseRow
  permissions : List Str
deriving DecidableEq

/-- What the middleware does with the response: an error response with a
status code (and the license reason when present), or `next()` with the
context attached. -/
inductive AuthOutcome where
  | respond (status : Nat) (error : Str) (reason : Option Str)
  | proceed (ctx : RequestContext)
deriving DecidableEq

/-- The tenant lookup of `authenticate` (best-effort: absence leaves the
context's tenant unset). -/
def tenantOf (st : Store) (user : UserRow) : Option TenantRow :=
  match user.tenant_id with
  | some tid => findTenant st tid
  | none => none

/-- `new Set(permissions.map(p => p.name))`: the resolved permission names,
de-duplicated in insertion order. -/
def contextPermissions (st : Store) (userId : Str) : List Str :=
  dedupKeyed (fun n => n)
    ((getUserRolesAndPermissions st userId).permissions.map (fun p => p.name)) []

/-- `authenticate` (rate-limit.middleware.ts:81-171): bearer-token
extraction, JWT verification (`verifyTok` models `authService.verifyToken`),
user and company lookup, license validation (skipped for super users),
tenant lookup, permission resolution, context assembly.  Returns the
outcome together with the store as left by `validateLicense`. -/
def authenticate (c : CryptoPrims) (verifyTok : Str → Option JwtPayload)
    (now : Nat) (st : Store) (authHeader : Option Str) : AuthOutcome × Store :=
  match authHeader with
  | none => (.respond 401 (str "Missing or invalid authorization header") none, st)
  | some header =>
    if header.take 7 = str "Bearer " then
      let token := header.drop 7
      match verifyTok token with
      | none => (.respond 401 (str "Invalid or expired token") none, st)
      | some payload =>
        match findUser st payload.userId with
        | none => (.respond 401 (str "User not found") none, st)
        | some user =>
          match findCompany st user.company_id with
          | none => (.respond 403 (str "Company not found") none, st)
          | some company =>
            if user.is_super_user then
              (.proceed
                 { user := user, company := company, tenant := tenantOf st user,
                   license := none, permissions := contextPermissions st user.id }, st)
            else
              match validateLicense c now st company.license_key with
              | (.invalid reason _, st2) =>
                (.respond 403 (str "Invalid or expired license") (some reason), st2)
              | (.valid license _, st2) =>
                (.proceed
                   { user := user, company := company, tenant := tenantOf st2 user,
                     license := some license,
                     permissions := contextPermissions st2 user.id }, st2)
    else (.respond 401 (str "Missing or invalid authorization header") none, st)

/-- `AuthService.register` (auth.service.ts:93-127): insert a user row
with `is_super_user: false`; the fresh UUID and the bcrypt hash are passed
explicitly. -/
def register (st : Store) (userId email passwordHash fullName companyId : Str)
    (isOrgAdmin : Bool) : Store :=
  { st with users := st.users ++
      [{ id := userId, email := email, full_name := fullName,
         password_hash := passwordHash, company_id := companyId,
         tenant_id := none, is_super_user := false, is_org_admin := isOrgAdmin }] }

/-- `UserService.createUser` (user.service.ts:71-106): insert a user row
with `is_super_user: false` and `tenant_id: data.tenantId || null`. -/
def createUser (st : Store) (userId email passwordHash fullName companyId : Str)
    (tenantId : Option Str) (isOrgAdmin : Bool) : Store :=
  { st with users := st.users ++
      [{ id := userId, email := email, full_name := fullName,
         password_hash := passwordHash, company_id := companyId,
         tenant_id := tenantId, is_super_user := false, is_org_admin := isOrgAdmin }] }

/-- `AuthService.initializeSuperUser` (auth.service.ts:26-82): refuse when
a super user already exists (`.eq('is_super_user', true).single()`),
otherwise create the system company and the unique super user.  Returns
the `success` flag with the updated store. -/
def initializeSuperUser (st : Store) (superCompanyId superUserId email passwordHash : Str) :
    Bool × Store :=
  match singleRow (st.users.filter (fun u => u.is_super_user)) with
  | some _ => (false, st)
  | none =>
    let st1 : Store := { st with companies := st.companies ++
      [{ id := superCompanyId, name := str "NEEMIFY System",
         domain := str "neemify.system", license_key := str "SYSTEM-LICENSE",
         license_status := .active }] }
    (true, { st1 with users := st1.users ++
      [{ id := superUserId, email := email, full_name := str "System Administrator",
         password_hash := passwordHash, company_id := superCompanyId,
         tenant_id := none, is_super_user := true, is_org_admin := true }] })

/-- The user-creating operations of the system, for the single-super-user
invariant. -/
inductive AuthOp where
  | register (userId email passwordHash fullName companyId : Str) (isOrgAdmin : Bool)
  | createUser (userId email passwordHash fullName companyId : Str)
      (tenantId : Option Str) (isOrgAdmin : Bool)
  | initializeSuperUser (companyId userId email passwordHash : Str)

/-- Apply one user-creating operation to the store. -/
def applyOp (st : Store) : AuthOp → Store
  | .register uid e ph fn cid oa => register st uid e ph fn cid oa
  | .createUser uid e ph fn cid tid oa => createUser st uid e ph fn cid tid oa
  | .initializeSuperUser cid uid e ph => (initializeSuperUser st cid uid e ph).2

/-- Apply a sequence of user-creating operations. -/
def applyOps (st : Store) (ops : List AuthOp) : Store :=
  ops.foldl applyOp st

/-- Number of users whose platform super-identity flag is set. -/
def countSuper (st : Store) : Nat :=
  (st.users.filter (fun u => u.is_super_user)).length

/-! ### A concrete instance of the cryptographic primitives

The theorems below are parametric in `CryptoPrims`; the witnesses
instantiate them with simple executable toy primitives (hex transcoding
for encryption, a bar-separated rendering for serialization) that satisfy
the hypotheses at the concrete inputs used. -/

/-- The sixteen lowercase hex digits. -/
def hexDigitChar (n : Nat) : Char :=
  (str "0123456789abcdef").getD n '0'

/-- Two-hex-digit encoding of each character code (for codes below 256). -/
def charsToHex : Str → Str
  | [] => []
  | c :: rest =>
    hexDigitChar (c.toNat / 16 % 16) :: hexDigitChar (c.toNat % 16) :: charsToHex rest

/-- Numeric value of a lowercase hex digit. -/
def hexVal (c : Char) : Nat :=
  if c.toNat ≥ 97 then c.toNat - 87 else c.toNat - 48

/-- Inverse of `charsToHex`. -/
def hexToChars : Str → Str
  | a :: b :: rest => Char.ofNat (hexVal a * 16 + hexVal b) :: hexToChars rest
  | _ => []

/-- Decimal rendering of a natural number. -/
def natToStr (n : Nat) : Str := Nat.toDigits 10 n

/-- Decimal parsing of a digit string. -/
def natFromStr (s : Str) : Nat :=
  s.foldl (fun a c => a * 10 + (c.toNat - 48)) 0

/-- Optional number: empty string for `none`. -/
def optNatToStr : Option Nat → Str
  | none => []
  | some n => natToStr n

/-- Inverse of `optNatToStr`. -/
def optNatFromStr (s : Str) : Option Nat :=
  if s = [] then none else some (natFromStr s)

/-- Splitting on `'|'`, for the toy serializer. -/
def splitBarAux : Str → Str → List Str
  | [], acc => [acc.reverse]
  | c :: rest, acc =>
    if c = '|' then acc.reverse :: splitBarAux rest [] else splitBarAux rest (c :: acc)

/-- Splitting on `'|'`. -/
def splitBar (s : Str) : List Str := splitBarAux s []

/-- Comma-join. -/
def joinComma : List Str → Str
  | [] => []
  | [x] => x
  | x :: rest => x ++ ',' :: joinComma rest

/-- Toy module-list parsing (supports the empty and singleton lists the
witnesses use). -/
def modsFromStr (s : Str) : List Str :=
  if s = [] then [] else [s]

/-- Toy custom-feature rendering: `name:1` / `name:0`, comma-joined. -/
def custToStr (l : List (Str × Bool)) : Str :=
  joinComma (l.map (fun pr => pr.1 ++ ':' :: [if pr.2 then '1' else '0']))

/-- Toy custom-feature parsing (supports the empty and singleton lists the
witnesses use). -/
def custFromStr (s : Str) : List (Str × Bool) :=
  if s = [] then []
  else
    let pr := s.span (fun c => ¬ c = ':')
    [(pr.1, decide (pr.2 = [':', '1']))]

/-- Toy payload serializer: ten bar-separated fields. -/
def encodePayloadToy (p : LicensePayload) : Str :=
  p.companyId ++ '|' :: p.companyName ++ '|' :: natToStr p.issuedAt ++
    '|' :: optNatToStr p.expiresAt ++ '|' :: p.nonce ++
    '|' :: optNatToStr p.features.max_users ++
    '|' :: optNatToStr p.features.max_tenants ++
    '|' :: optNatToStr p.features.api_rate_limit ++
    '|' :: joinComma p.features.enabled_modules ++
    '|' :: custToStr p.features.custom_features

/-- Toy payload parser, inverse of `encodePayloadToy` on the fragment the
witnesses use. -/
def decodePayloadToy (s : Str) : Option LicensePayload :=
  match splitBar s with
  | [cid, cname, iss, exp, non, mu, mt, arl, mods, custs] =>
    some
      { companyId := cid, companyName := cname, issuedAt := natFromStr iss,
        expiresAt := optNatFromStr exp, nonce := non,
        features :=
          { max_users := optNatFromStr mu, max_tenants := optNatFromStr mt,
            api_rate_limit := optNatFromStr arl,
            enabled_modules := modsFromStr mods,
            custom_features := custFromStr custs } }
  | _ => none

/-- Toy instantiation of the cryptographic primitives: encryption is hex
transcoding (IV-independent), the auth tag is the hex transcoding of the
plaintext, the MAC is hex transcoding of its input. -/
def toyCrypto : CryptoPrims :=
  { encrypt := fun _iv m => charsToHex m
    decrypt := fun _iv ct => hexToChars ct
    authTag := fun _iv m => charsToHex m
    hmac := fun d => charsToHex d
    serialize := encodePayloadToy
    deserialize := decodePayloadToy }

/-- The four reason strings `validateLicense` can actually produce. -/
def reachableReasons : List Str :=
  [str "Invalid license format", str "Invalid license signature",
   str "License validation error: " ++ str "Input buffers must have the same byte length",
   str "License validation error: " ++ str "Invalid encrypted payload format"]

/-- A permission is resolved for a user exactly when some `user_roles` row
of the user joins (through an existing role) to a `role_permissions` row
whose permission exists: the extensional content of
`getUserRolesAndPermissions`. -/
def userResolvedPerm (st : Store) (userId : Str) (p : PermissionRow) : Prop :=
  ∃ ur ∈ st.user_roles, ur.user_id = userId ∧
    (∃ role, findRole st ur.role_id = some role) ∧
    ∃ rp ∈ st.role_permissions, rp.role_id = ur.role_id ∧
      findPerm st rp.permission_id = some p

/-- A `role_permissions` row. -/
def rpRow (roleId permissionId : Str) : RolePermissionRow :=
  { role_id := roleId, permission_id := permissionId }

/-- The Admin role row created by `createDefaultRoles`. -/
def adminRoleRow (rid cid : Str) : RoleRow :=
  { id := rid, company_id := cid, name := str "Admin",
    description := str "Full administrative access" }

/-- The Operator role row created by `createDefaultRoles`. -/
def operatorRoleRow (rid cid : Str) : RoleRow :=
  { id := rid, company_id := cid, name := str "Operator",
    description := str "Operational access" }

/-- The Viewer role row created by `createDefaultRoles`. -/
def viewerRoleRow (rid cid : Str) : RoleRow :=
  { id := rid, company_id := cid, name := str "Viewer",
    description := str "Read-only access" }

/-- Concrete super user for witnesses. -/
def suRow : UserRow :=
  { id := str "su", email := str "s@x.com", full_name := str "S",
    password_hash := str "h", company_id := str "c1", tenant_id := none,
    is_super_user := true, is_org_admin := true }

/-- Concrete regular user for witnesses. -/
def u1Row : UserRow :=
  { id := str "u1", email := str "u@x.com", full_name := str "U",
    password_hash := str "h", company_id := str "c1", tenant_id := none,
    is_super_user := false, is_org_admin := false }

/-- Concrete RBAC store for witnesses: the regular user holds two roles,
each granting one permission. -/
def rbacStore : Store :=
  { users := [suRow, u1Row], companies := [], tenants := [], licenses := [],
    roles := [{ id := str "r1", company_id := str "c1", name := str "Admin",
                description := str "d" },
              { id := str "r2", company_id := str "c1", name := str "Ops",
                description := str "d" }],
    permissions := [{ id := str "p1", name := str "user.read",
                      resource := str "user", action := str "read" },
                    { id := str "p2", name := str "tenant.create",
                      resource := str "tenant", action := str "create" }],
    role_permissions := [{ role_id := str "r1", permission_id := str "p1" },
                         { role_id := str "r2", permission_id := str "p2" }],
    user_roles := [{ user_id := str "u1", role_id := str "r1", assigned_by := str "su" },
                   { user_id := str "u1", role_id := str "r2", assigned_by := str "su" }] }

/-- Concrete company for witnesses: its stored license key is the
two-segment string `k` (one segment, in fact), so validation fails with
`Invalid license format`. -/
def c1Row : CompanyRow :=
  { id := str "c1", name := str "Acme", domain := str "acme.com",
    license_key := str "k", license_status := .active }

/-- Concrete store for the pipeline witnesses. -/
def pipeStore : Store := { rbacStore with companies := [c1Row] }

/-- Concrete JWT payload for witnesses. -/
def jwtOf (uid : Str) : JwtPayload :=
  { userId := uid, email := str "e", companyId := str "c1", tenantId := none,
    isSuperUser := false, isOrgAdmin := false, permissions := [] }

/-- Concrete token verifier for witnesses. -/
def vtToy : Str → Option JwtPayload := fun s =>
  if s = str "tsu" then some (jwtOf (str "su"))
  else if s = str "tu1" then some (jwtOf (str "u1"))
  else none

/-- An empty store, for concrete witnesses. -/
def emptyStore : Store :=
  { users := [], companies := [], tenants := [], licenses := [], roles := [],
    permissions := [], role_permissions := [], user_roles := [] }

/-- A store whose catalog has one permission named `doc.ready` with action
`ready`: its name contains `.read` as a substring although its action is
neither `read` nor `create`. -/
def cdStore : Store :=
  { users := [], companies := [], tenants := [], licenses := [], roles := [],
    permissions := [{ id := str "p1", name := str "doc.ready",
                      resource := str "doc", action := str "ready" }],
    role_permissions := [], user_roles := [] }

/-- A sample feature set (`{max_users: 50}` from the spec's scenario). -/
def sampleFeatures : LicenseFeatures :=
  { max_users := some 50, max_tenants := none, api_rate_limit := none,
    enabled_modules := [], custom_features := [] }

/-! ### Lemmas about dot-splitting -/

theorem countDots_append (a b : Str) :
    countDots (a ++ b) = countDots a + countDots b := by
  induction a with
  | nil => simp [countDots]
  | cons c rest ih => simp [countDots, ih]; omega

theorem countDots_reverse (a : Str) : countDots a.reverse = countDots a := by
  induction a with
  | nil => rfl
  | cons c rest ih =>
    simp [List.reverse_cons, countDots_append, countDots, ih]; omega

theorem splitDotsAux_length (l : Str) :
    ∀ acc, (splitDotsAux l acc).length = countDots l + 1 := by
  induction l with
  | nil => intro acc; simp [splitDotsAux, countDots]
  | cons c rest ih =>
    intro acc
    by_cases hc : c = '.'
    · simp [splitDotsAux, hc, countDots, ih]; omega
    · simp [splitDotsAux, hc, countDots, ih]

theorem splitDots_length (s : Str) : (splitDots s).length = countDots s + 1 :=
  splitDotsAux_length s []

theorem splitDotsAux_noDot (l : Str) (h : countDots l = 0) :
    ∀ acc, splitDotsAux l acc = [acc.reverse ++ l] := by
  induction l with
  | nil => intro acc; simp [splitDotsAux]
  | cons c rest ih =>
    intro acc
    have hc : ¬ c = '.' := by
      intro hc; simp [countDots, hc] at h
    have hrest : countDots rest = 0 := by
      simp [countDots, hc] at h; exact h
    simp [splitDotsAux, hc, ih hrest]

theorem splitDotsAux_append_dot (a : Str) (h : countDots a = 0) (rest : Str) :
    ∀ acc, splitDotsAux (a ++ '.' :: rest) acc =
      (acc.reverse ++ a) :: splitDotsAux rest [] := by
  induction a with
  | nil => intro acc; simp [splitDotsAux]
  | cons c as ih =>
    intro acc
    have hc : ¬ c = '.' := by
      intro hc; simp [countDots, hc] at h
    have has : countDots as = 0 := by
      simp [countDots, hc] at h; exact h
    simp [splitDotsAux, hc, ih has]

theorem splitDots_two (a b : Str)
    (ha : countDots a = 0) (hb : countDots b = 0) :
    splitDots (a ++ str "." ++ b) = [a, b] := by
  have : a ++ str "." ++ b = a ++ '.' :: b := by simp [str]
  rw [splitDots, this, splitDotsAux_append_dot a ha b [],
    splitDotsAux_noDot b hb []]
  simp

theorem splitDots_three (a b c : Str)
    (ha : countDots a = 0) (hb : countDots b = 0) (hc : countDots c = 0) :
    splitDots (a ++ str "." ++ b ++ str "." ++ c) = [a, b, c] := by
  have : a ++ str "." ++ b ++ str "." ++ c = a ++ '.' :: (b ++ '.' :: c) := by
    simp [str]
  rw [splitDots, this, splitDotsAux_append_dot a ha _ [],
    splitDotsAux_append_dot b hb c [], splitDotsAux_noDot c hc []]
  simp

theorem splitDots_four (a b c d : Str)
    (ha : countDots a = 0) (hb : countDots b = 0) (hc : countDots c = 0)
    (hd : countDots d = 0) :
    splitDots (a ++ str "." ++ b ++ str "." ++ c ++ str "." ++ d) = [a, b, c, d] := by
  have : a ++ str "." ++ b ++ str "." ++ c ++ str "." ++ d =
      a ++ '.' :: (b ++ '.' :: (c ++ '.' :: d)) := by simp [str]
  rw [splitDots, this, splitDotsAux_append_dot a ha _ [],
    splitDotsAux_append_dot b hb _ [], splitDotsAux_append_dot c hc d [],
    splitDotsAux_noDot d hd []]
  simp

theorem isHexStr_countDots (s : Str) (h : isHexStr s = true) : countDots s = 0 := by
  induction s with
  | nil => rfl
  | cons c rest ih =>
    simp only [isHexStr, List.all_cons, Bool.and_eq_true] at h
    obtain ⟨h1, h2⟩ := h
    have hc : ¬ c = '.' := by
      intro hcc; subst hcc; revert h1; decide
    have hrest : countDots rest = 0 := ih h2
    simp [countDots, hc, hrest]

theorem mem_splitDotsAux_noDot (l : Str) :
    ∀ acc s, countDots acc = 0 → s ∈ splitDotsAux l acc → countDots s = 0 := by
  induction l with
  | nil =>
    intro acc s hacc hs
    simp [splitDotsAux] at hs
    subst hs; rw [countDots_reverse]; exact hacc
  | cons c rest ih =>
    intro acc s hacc hs
    by_cases hc : c = '.'
    · simp [splitDotsAux, hc] at hs
      rcases hs with hs | hs
      · subst hs; rw [countDots_reverse]; exact hacc
      · exact ih [] s rfl hs
    · simp [splitDotsAux, hc] at hs
      exact ih (c :: acc) s (by simp [countDots, hc, hacc]) hs

theorem mem_splitDots_noDot (l s : Str) (hs : s ∈ splitDots l) : countDots s = 0 :=
  mem_splitDotsAux_noDot l [] s rfl hs

theorem countDots_set (l : Str) (ch : Char) :
    ∀ i, countDots l ≤ countDots (l.set i ch) + 1 ∧
      countDots (l.set i ch) ≤ countDots l + 1 := by
  induction l with
  | nil => intro i; cases i <;> simp [countDots]
  | cons c rest ih =>
    intro i
    cases i with
    | zero =>
      simp only [List.set]
      by_cases hc : c = '.' <;> by_cases hch : ch = '.' <;>
        simp [countDots, hc, hch] <;> omega
    | succ j =>
      have := ih j
      simp only [List.set]
      by_cases hc : c = '.' <;> simp [countDots, hc] <;> omega

/-! ### Structural lemmas about `validateLicense` -/

theorem validateLicense_format (c : CryptoPrims) (now : Nat) (st : Store)
    (key : Str) (h : (splitDots key).length ≠ 2) :
    validateLicense c now st key = (.invalid (str "Invalid license format") none, st) := by
  unfold validateLicense validateLicenseBody
  rcases hsp : splitDots key with _ | ⟨e, _ | ⟨s, _ | ⟨x, l⟩⟩⟩
  · rfl
  · rfl
  · rw [hsp] at h; simp at h
  · rfl

theorem validateLicense_shape (c : CryptoPrims) (now : Nat) (st : Store) (key : Str) :
    ∃ r, validateLicense c now st key = (.invalid r none, st) ∧ r ∈ reachableReasons := by
  unfold validateLicense validateLicenseBody
  rcases hsp : splitDots key with _ | ⟨e, _ | ⟨s, _ | ⟨x, l⟩⟩⟩
  · exact ⟨_, rfl, by simp [reachableReasons]⟩
  · exact ⟨_, rfl, by simp [reachableReasons]⟩
  · have he : countDots e = 0 := mem_splitDots_noDot key e (by rw [hsp]; simp)
    have hde : decryptPayload c e = .error (str "Invalid encrypted payload format") := by
      unfold decryptPayload
      rw [show splitDots e = [e] from by
        rw [splitDots, splitDotsAux_noDot e he []]; simp]
    unfold verifySignature timingSafeEqual signData
    dsimp only
    by_cases hb : byteLen s = byteLen (c.hmac e)
    · rw [if_pos hb]
      cases hd : decide (s = c.hmac e) with
      | false => exact ⟨_, rfl, by simp [reachableReasons]⟩
      | true => rw [hde]; exact ⟨_, rfl, by simp [reachableReasons]⟩
    · rw [if_neg hb]
      exact ⟨_, rfl, by simp [reachableReasons]⟩
  · exact ⟨_, rfl, by simp [reachableReasons]⟩

theorem reachableReasons_nonempty (r : Str) (h : r ∈ reachableReasons) :
    r ≠ ([] : Str) := by
  simp [reachableReasons, str] at h
  rcases h with h | h | h | h <;> subst h <;> simp [str]

/-- The license key produced by `generateLicense` is the four-segment
string `iv.ciphertext.authTag.signature`. -/
theorem generateLicense_key_eq (c : CryptoPrims) (st : Store) (now : Nat)
    (iv nonce licenseId companyId companyName : Str) (features : LicenseFeatures)
    (expiresInDays : Option Nat) :
    (generateLicense c st now iv nonce licenseId companyId companyName features
        expiresInDays).1 =
      iv ++ str "." ++
        c.encrypt iv (c.serialize
          (licensePayloadOf companyId companyName features now expiresInDays nonce)) ++
        str "." ++
        c.authTag iv (c.serialize
          (licensePayloadOf companyId companyName features now expiresInDays nonce)) ++
        str "." ++
        c.hmac (encryptPayload c iv
          (licensePayloadOf companyId companyName features now expiresInDays nonce)) := rfl

/-- C1: the scenario 'generate then validate returns `valid:true`' fails on
the code.  A key returned by `generateLicense` consists of four
dot-separated hex segments (`ivHex.ciphertextHex.authTagHex.signatureHex`),
but `validateLicense` splits the whole key on `'.'` and requires exactly
two parts, so every generated key — in any store state, including the one
holding its freshly stored active license row — is rejected as
`Invalid license format` and never reaches the signature, decryption,
lookup or expiry logic. -/
theorem generated_key_rejected_invalid_format (c : CryptoPrims) (st st2 : Store)
    (now now2 : Nat) (iv nonce licenseId companyId companyName : Str)
    (features : LicenseFeatures) (days : Nat)
    (hiv : isHexStr iv = true)
    (henc : isHexStr (c.encrypt iv (c.serialize
      (licensePayloadOf companyId companyName features now (some days) nonce))) = true)
    (htag : isHexStr (c.authTag iv (c.serialize
      (licensePayloadOf companyId companyName features now (some days) nonce))) = true)
    (hsig : isHexStr (c.hmac (encryptPayload c iv
      (licensePayloadOf companyId companyName features now (some days) nonce))) = true) :
    validateLicense c now2 st2
        (generateLicense c st now iv nonce licenseId companyId companyName features
          (some days)).1 =
      (VResult.invalid (str "Invalid license format") none, st2) := by
  apply validateLicense_format
  rw [generateLicense_key_eq,
    splitDots_four _ _ _ _ (isHexStr_countDots _ hiv) (isHexStr_countDots _ henc)
      (isHexStr_countDots _ htag) (isHexStr_countDots _ hsig)]
  simp

/-- C1 witness: the concrete scenario
`generate(org1, "Acme", {max_users:50}, 365)` with the toy primitives. -/
theorem generated_key_rejected_invalid_format_witness :
    isHexStr (str "00ff") = true ∧
    validateLicense toyCrypto 1 emptyStore
        (generateLicense toyCrypto emptyStore 0 (str "00ff") (str "6e") (str "lic1")
          (str "org1") (str "Acme") sampleFeatures (some 365)).1 =
      (VResult.invalid (str "Invalid license format") none, emptyStore) :=
  ⟨by decide,
   generated_key_rejected_invalid_format toyCrypto emptyStore emptyStore 0 1
     (str "00ff") (str "6e") (str "lic1") (str "org1") (str "Acme") sampleFeatures 365
     (by decide) (by decide) (by decide) (by decide)⟩

/-- C2: decoding inverts encoding.  For primitives where decryption under
the same key and IV inverts encryption and deserialization inverts
serialization (as for AES-256-GCM and `JSON.parse`/`JSON.stringify` on
well-formed payloads), `decryptPayload (encryptPayload p) = p` for every
payload and every (fresh, random) hex IV. -/
theorem decryptPayload_encryptPayload_roundtrip (c : CryptoPrims) (iv : Str)
    (p : LicensePayload)
    (hiv : isHexStr iv = true)
    (henc : isHexStr (c.encrypt iv (c.serialize p)) = true)
    (htag : isHexStr (c.authTag iv (c.serialize p)) = true)
    (hdec : c.decrypt iv (c.encrypt iv (c.serialize p)) = c.serialize p)
    (hdes : c.deserialize (c.serialize p) = some p) :
    decryptPayload c (encryptPayload c iv p) = .ok p := by
  unfold encryptPayload decryptPayload
  dsimp only
  rw [splitDots_three _ _ _ (isHexStr_countDots _ hiv) (isHexStr_countDots _ henc)
    (isHexStr_countDots _ htag)]
  dsimp only
  rw [hdec, if_pos rfl, hdes]

/-- C2 witness: a concrete payload round-trips through the toy codec. -/
theorem decryptPayload_encryptPayload_roundtrip_witness :
    toyCrypto.decrypt (str "00ff")
        (toyCrypto.encrypt (str "00ff") (toyCrypto.serialize
          (licensePayloadOf (str "org1") (str "Acme") sampleFeatures 5 (some 7) (str "6e")))) =
      toyCrypto.serialize
        (licensePayloadOf (str "org1") (str "Acme") sampleFeatures 5 (some 7) (str "6e")) ∧
    decryptPayload toyCrypto
        (encryptPayload toyCrypto (str "00ff")
          (licensePayloadOf (str "org1") (str "Acme") sampleFeatures 5 (some 7) (str "6e"))) =
      .ok (licensePayloadOf (str "org1") (str "Acme") sampleFeatures 5 (some 7) (str "6e")) :=
  ⟨by decide,
   decryptPayload_encryptPayload_roundtrip toyCrypto (str "00ff")
     (licensePayloadOf (str "org1") (str "Acme") sampleFeatures 5 (some 7) (str "6e"))
     (by decide) (by decide) (by decide) (by decide) (by decide)⟩

/-- C3 (amended): flipping any single character of a generated key yields
`valid:false` — but always with reason `Invalid license format`, never
`Invalid license signature` or a decryption failure, because the
four-segment key already fails the two-segment top-level format check and
a single-character change keeps the segment count away from two. -/
theorem tampered_generated_key_invalid_format (c : CryptoPrims) (st st2 : Store)
    (now now2 : Nat) (iv nonce licenseId companyId companyName : Str)
    (features : LicenseFeatures) (expiresInDays : Option Nat)
    (hiv : isHexStr iv = true)
    (henc : isHexStr (c.encrypt iv (c.serialize
      (licensePayloadOf companyId companyName features now expiresInDays nonce))) = true)
    (htag : isHexStr (c.authTag iv (c.serialize
      (licensePayloadOf companyId companyName features now expiresInDays nonce))) = true)
    (hsig : isHexStr (c.hmac (encryptPayload c iv
      (licensePayloadOf companyId companyName features now expiresInDays nonce))) = true)
    (i : Nat) (ch : Char)
    (hne : ((generateLicense c st now iv nonce licenseId companyId companyName features
        expiresInDays).1).set i ch ≠
      (generateLicense c st now iv nonce licenseId companyId companyName features
        expiresInDays).1) :
    validateLicense c now2 st2
        (((generateLicense c st now iv nonce licenseId companyId companyName features
          expiresInDays).1).set i ch) =
      (VResult.invalid (str "Invalid license format") none, st2) ∧
    ∀ l p, (validateLicense c now2 st2
        (((generateLicense c st now iv nonce licenseId companyId companyName features
          expiresInDays).1).set i ch)).1 ≠ VResult.valid l p := by
  have hK : countDots (generateLicense c st now iv nonce licenseId companyId
      companyName features expiresInDays).1 = 3 := by
    rw [generateLicense_key_eq]
    simp [countDots_append, isHexStr_countDots _ hiv, isHexStr_countDots _ henc,
      isHexStr_countDots _ htag, isHexStr_countDots _ hsig, str, countDots]
  have hbounds := countDots_set
    (generateLicense c st now iv nonce licenseId companyId companyName features
      expiresInDays).1 ch i
  have hfmt := validateLicense_format c now2 st2
    (((generateLicense c st now iv nonce licenseId companyId companyName features
      expiresInDays).1).set i ch)
    (by rw [splitDots_length]; omega)
  refine ⟨hfmt, ?_⟩
  intro l p hlp
  rw [hfmt] at hlp
  cases hlp

/-- C3 theorem witness: a concrete single-character flip. -/
theorem tampered_generated_key_invalid_format_witness :
    ((generateLicense toyCrypto emptyStore 0 (str "00ff") (str "6e") (str "lic1")
        (str "org1") (str "Acme") sampleFeatures (some 365)).1).set 0 'f' ≠
      (generateLicense toyCrypto emptyStore 0 (str "00ff") (str "6e") (str "lic1")
        (str "org1") (str "Acme") sampleFeatures (some 365)).1 ∧
    validateLicense toyCrypto 1 emptyStore
        (((generateLicense toyCrypto emptyStore 0 (str "00ff") (str "6e") (str "lic1")
          (str "org1") (str "Acme") sampleFeatures (some 365)).1).set 0 'f') =
      (VResult.invalid (str "Invalid license format") none, emptyStore) :=
  ⟨by decide,
   (tampered_generated_key_invalid_format toyCrypto emptyStore emptyStore 0 1
     (str "00ff") (str "6e") (str "lic1") (str "org1") (str "Acme") sampleFeatures
     (some 365) (by decide) (by decide) (by decide) (by decide) 0 'f' (by decide)).1⟩

/-- C3 counterexample to the claim as stated: for a concrete generated key
with one character flipped, the validator's reason is
`Invalid license format` — not the signature-mismatch reason
(`Invalid license signature`) and not a decryption failure (which would
surface as `License validation error: Unsupported state or unable to
authenticate data` or `License validation error: Invalid encrypted payload
format`). -/
theorem tampered_key_reason_counterexample :
    (validateLicense toyCrypto 1 emptyStore
        (((generateLicense toyCrypto emptyStore 0 (str "00ff") (str "6e") (str "lic1")
          (str "org1") (str "Acme") sampleFeatures (some 365)).1).set 0 'f')).1 =
      VResult.invalid (str "Invalid license format") none ∧
    str "Invalid license format" ≠ str "Invalid license signature" ∧
    str "Invalid license format" ≠
      str "License validation error: " ++
        str "Unsupported state or unable to authenticate data" ∧
    str "Invalid license format" ≠
      str "License validation error: " ++ str "Invalid encrypted payload format" := by
  refine ⟨?_, by decide, by decide, by decide⟩
  decide

/-- C4: the lazy-expiry transition is unreachable.  For every store and
every input key, `validateLicense` leaves the store completely unchanged
(in particular it never sets any license status to `expired`) and never
returns `valid:true`; consequently a second call behaves identically.
This contradicts the claimed first-call `active -> expired` transition:
no string can reach the expiry branch, because reaching decryption
requires exactly two top-level dot-segments while the inner decryption
then requires the (necessarily dot-free) first segment to split into
three further segments. -/
theorem validateLicense_expiry_transition_never_occurs (c : CryptoPrims)
    (now now2 : Nat) (st : Store) (key : Str) :
    (validateLicense c now st key).2 = st ∧
    (∀ l p, (validateLicense c now st key).1 ≠ VResult.valid l p) ∧
    (validateLicense c now2 (validateLicense c now st key).2 key).2 = st ∧
    (∀ l p, (validateLicense c now2 (validateLicense c now st key).2 key).1 ≠
      VResult.valid l p) := by
  obtain ⟨r1, h1, -⟩ := validateLicense_shape c now st key
  have hs1 : (validateLicense c now st key).2 = st := by rw [h1]
  obtain ⟨r2, h2, -⟩ := validateLicense_shape c now2 st key
  refine ⟨hs1, ?_, ?_, ?_⟩
  · intro l p hlp; rw [h1] at hlp; cases hlp
  · rw [hs1, h2]
  · intro l p hlp; rw [hs1, h2] at hlp; cases hlp

/-- C10: `validateLicense` is total and fails closed.  On every input
string — including those whose signature segment's byte length differs
from the HMAC output (which makes `crypto.timingSafeEqual` itself throw)
and those with an undecryptable first segment — it returns
`{valid:false, reason}` with a non-empty reason drawn from the catch-all
conversion `License validation error: <message>` or one of the explicit
reason strings, and never propagates an exception. -/
theorem validateLicense_total_invalid_reason (c : CryptoPrims) (now : Nat)
    (st : Store) (key : Str) :
    ∃ reason, validateLicense c now st key = (.invalid reason none, st) ∧
      reason ≠ ([] : Str) ∧ reason ∈ reachableReasons := by
  obtain ⟨r, h, hm⟩ := validateLicense_shape c now st key
  exact ⟨r, h, reachableReasons_nonempty r hm, hm⟩

/-! ### RBAC resolution lemmas -/

theorem singleRow_eq_some {α : Type} (l : List α) (x : α) :
    singleRow l = some x ↔ l = [x] := by
  match l with
  | [] => simp [singleRow]
  | [a] => simp [singleRow]
  | a :: b :: rest => simp [singleRow]

theorem findPerm_eq_some (st : Store) (k : Str) (p : PermissionRow)
    (h : findPerm st k = some p) : p.id = k ∧ findPerm st p.id = some p := by
  rw [findPerm, singleRow_eq_some] at h
  have hp : p ∈ st.permissions.filter (fun q => decide (q.id = k)) := by
    rw [h]; simp
  rw [List.mem_filter] at hp
  have hid : p.id = k := by simpa using hp.2
  subst hid
  exact ⟨rfl, by rw [findPerm, singleRow_eq_some]; exact h⟩

theorem findRole_eq_some (st : Store) (k : Str) (r : RoleRow)
    (h : findRole st k = some r) : r.id = k ∧ findRole st r.id = some r := by
  rw [findRole, singleRow_eq_some] at h
  have hr : r ∈ st.roles.filter (fun q => decide (q.id = k)) := by
    rw [h]; simp
  rw [List.mem_filter] at hr
  have hid : r.id = k := by simpa using hr.2
  subst hid
  exact ⟨rfl, by rw [findRole, singleRow_eq_some]; exact h⟩

theorem mem_of_mem_dedupKeyed {α β : Type} [DecidableEq β] (f : α → β)
    (l : List α) : ∀ seen a, a ∈ dedupKeyed f l seen → a ∈ l := by
  induction l with
  | nil => intro seen a ha; simp [dedupKeyed] at ha
  | cons b rest ih =>
    intro seen a ha
    by_cases hb : f b ∈ seen
    · simp [dedupKeyed, hb] at ha
      exact List.mem_cons_of_mem b (ih _ a ha)
    · simp [dedupKeyed, hb] at ha
      rcases ha with ha | ha
      · simp [ha]
      · exact List.mem_cons_of_mem b (ih _ a ha)

theorem mem_dedupKeyed_of_mem {α β : Type} [DecidableEq β] (f : α → β)
    (l : List α) (hdet : ∀ x ∈ l, ∀ y ∈ l, f x = f y → x = y) :
    ∀ seen a, a ∈ l → f a ∉ seen → a ∈ dedupKeyed f l seen := by
  induction l with
  | nil => intro seen a ha; simp at ha
  | cons b rest ih =>
    intro seen a ha hseen
    have hdet' : ∀ x ∈ rest, ∀ y ∈ rest, f x = f y → x = y := by
      intro x hx y hy
      exact hdet x (List.mem_cons_of_mem b hx) y (List.mem_cons_of_mem b hy)
    rcases List.mem_cons.mp ha with hab | harest
    · subst hab
      by_cases hb : f a ∈ seen
      · exact absurd hb hseen
      · simp [dedupKeyed, hb]
    · by_cases hb : f b ∈ seen
      · simp only [dedupKeyed, if_pos hb]
        exact ih hdet' seen a harest hseen
      · simp only [dedupKeyed, if_neg hb]
        by_cases hfab : f a = f b
        · have : a = b :=
            hdet a ha b (List.mem_cons_self b rest) hfab
          simp [this]
        · exact List.mem_cons_of_mem b
            (ih hdet' (f b :: seen) a harest (by simp [hseen, hfab]))

theorem mem_rolePerms (st : Store) (rid : Str) (p : PermissionRow) :
    p ∈ (getRoleWithPermissions st rid).2 ↔
      (∃ role, findRole st rid = some role) ∧
        ∃ rp ∈ st.role_permissions, rp.role_id = rid ∧
          findPerm st rp.permission_id = some p := by
  unfold getRoleWithPermissions
  cases hr : findRole st rid with
  | none => simp [hr]
  | some role =>
    simp only [hr, List.mem_filterMap, List.mem_filter]
    constructor
    · rintro ⟨rp, ⟨hrp, hrid⟩, hfind⟩
      exact ⟨⟨role, rfl⟩, rp, hrp, by simpa using hrid, hfind⟩
    · rintro ⟨-, rp, hrp, hrid, hfind⟩
      exact ⟨rp, ⟨hrp, by simpa using hrid⟩, hfind⟩

theorem mem_collectRolePermissions (st : Store) (roles : List RoleRow)
    (p : PermissionRow) :
    p ∈ collectRolePermissions st roles ↔
      ∃ role ∈ roles, p ∈ (getRoleWithPermissions st role.id).2 := by
  induction roles with
  | nil => simp [collectRolePermissions]
  | cons role rest ih =>
    simp [collectRolePermissions, List.mem_append, ih]

theorem mem_userRolesOf (st : Store) (uid : Str) (role : RoleRow) :
    role ∈ userRolesOf st uid ↔
      ∃ ur ∈ st.user_roles, ur.user_id = uid ∧ findRole st ur.role_id = some role := by
  unfold userRolesOf
  simp only [List.mem_filterMap, List.mem_filter]
  constructor
  · rintro ⟨ur, ⟨hur, huid⟩, hfind⟩
    exact ⟨ur, hur, by simpa using huid, hfind⟩
  · rintro ⟨ur, hur, huid, hfind⟩
    exact ⟨ur, ⟨hur, by simpa using huid⟩, hfind⟩

theorem collectRolePermissions_det (st : Store) (roles : List RoleRow)
    (p : PermissionRow) (hp : p ∈ collectRolePermissions st roles) :
    findPerm st p.id = some p := by
  rw [mem_collectRolePermissions] at hp
  obtain ⟨role, -, hp⟩ := hp
  obtain ⟨-, rp, -, -, hfind⟩ := (mem_rolePerms st role.id p).mp hp
  exact (findPerm_eq_some st rp.permission_id p hfind).2

theorem mem_resolvedPermissions (st : Store) (uid : Str) (p : PermissionRow) :
    p ∈ (getUserRolesAndPermissions st uid).permissions ↔
      userResolvedPerm st uid p := by
  unfold getUserRolesAndPermissions
  dsimp only
  constructor
  · intro hp
    have hp' := mem_of_mem_dedupKeyed _ _ _ _ hp
    rw [mem_collectRolePermissions] at hp'
    obtain ⟨role, hrole, hp'⟩ := hp'
    rw [mem_userRolesOf] at hrole
    obtain ⟨ur, hur, huid, hfindr⟩ := hrole
    obtain ⟨-, rp, hrp, hrid, hfindp⟩ := (mem_rolePerms st role.id p).mp hp'
    have hrole_id := (findRole_eq_some st ur.role_id role hfindr).1
    exact ⟨ur, hur, huid, ⟨role, hfindr⟩, rp, hrp, by rw [hrid, hrole_id], hfindp⟩
  · rintro ⟨ur, hur, huid, ⟨role, hfindr⟩, rp, hrp, hrid, hfindp⟩
    have hrole_sub := findRole_eq_some st ur.role_id role hfindr
    have hcol : p ∈ collectRolePermissions st (userRolesOf st uid) := by
      rw [mem_collectRolePermissions]
      refine ⟨role, ?_, ?_⟩
      · rw [mem_userRolesOf]; exact ⟨ur, hur, huid, hfindr⟩
      · rw [mem_rolePerms]
        exact ⟨⟨role, hrole_sub.2⟩, rp, hrp, by rw [hrid, hrole_sub.1], hfindp⟩
    exact mem_dedupKeyed_of_mem _ _
      (fun x hx y hy hxy => by
        have h1 := collectRolePermissions_det st _ x hx
        have h2 := collectRolePermissions_det st _ y hy
        rw [hxy] at h1; rw [h1] at h2; exact (Option.some.injEq _ _).mp h2)
      [] p hcol (by simp)

/-- C6: `userHasPermission` short-circuits to `true` when the user's
super-identity flag is set — for every permission name, including names
granted by no role and present in no permission row — and for a non-super
user returns `true` exactly when one of the user's roles grants a
permission whose name equals the requested name by exact string equality
(no wildcard matching). -/
theorem userHasPermission_super_bypass_and_exact_match (st : Store)
    (uid n : Str) (u : UserRow) (hu : findUser st uid = some u) :
    (u.is_super_user = true → userHasPermission st uid n = true) ∧
    (u.is_super_user = false →
      (userHasPermission st uid n = true ↔
        ∃ p, userResolvedPerm st uid p ∧ p.name = n)) := by
  unfold userHasPermission
  rw [hu]
  constructor
  · intro hs; simp [hs]
  · intro hs
    simp only [hs, Bool.false_eq_true, if_false, List.any_eq_true,
      decide_eq_true_eq]
    constructor
    · rintro ⟨p, hp, hname⟩
      exact ⟨p, (mem_resolvedPermissions st uid p).mp hp, hname⟩
    · rintro ⟨p, hp, hname⟩
      exact ⟨p, (mem_resolvedPermissions st uid p).mpr hp, hname⟩

/-- C6 witness: the concrete super user passes an arbitrary nonexistent
permission name; the concrete regular user's check is equivalent to its
role grants. -/
theorem userHasPermission_super_bypass_and_exact_match_witness :
    findUser rbacStore (str "su") = some suRow ∧
    (suRow.is_super_user = true →
      userHasPermission rbacStore (str "su") (str "no.such") = true) ∧
    findUser rbacStore (str "u1") = some u1Row ∧
    (u1Row.is_super_user = false →
      (userHasPermission rbacStore (str "u1") (str "user.read") = true ↔
        ∃ p, userResolvedPerm rbacStore (str "u1") p ∧ p.name = str "user.read")) :=
  ⟨by decide,
   (userHasPermission_super_bypass_and_exact_match rbacStore (str "su")
     (str "no.such") suRow (by decide)).1,
   by decide,
   (userHasPermission_super_bypass_and_exact_match rbacStore (str "u1")
     (str "user.read") u1Row (by decide)).2⟩

/-- C7: the permission set resolved by `getUserRolesAndPermissions` does
not depend on the order of the user's role assignments: permuting the
`user_roles` table preserves membership of every permission in the
resolved collection. -/
theorem getUserRolesAndPermissions_order_independent (st : Store)
    (ur2 : List UserRoleRow) (uid : Str) (hperm : st.user_roles.Perm ur2) :
    ∀ p, p ∈ (getUserRolesAndPermissions st uid).permissions ↔
      p ∈ (getUserRolesAndPermissions { st with user_roles := ur2 } uid).permissions := by
  intro p
  rw [mem_resolvedPermissions, mem_resolvedPermissions]
  unfold userResolvedPerm
  constructor
  · rintro ⟨ur, hur, rest⟩
    exact ⟨ur, hperm.mem_iff.mp hur, rest⟩
  · rintro ⟨ur, hur, rest⟩
    exact ⟨ur, hperm.mem_iff.mpr hur, rest⟩

/-- C7 witness: resolving the concrete user with roles `[r1, r2]` gives
the same permission memberships as with roles `[r2, r1]`. -/
theorem getUserRolesAndPermissions_order_independent_witness :
    rbacStore.user_roles.Perm
      [{ user_id := str "u1", role_id := str "r2", assigned_by := str "su" },
       { user_id := str "u1", role_id := str "r1", assigned_by := str "su" }] ∧
    ∀ p, p ∈ (getUserRolesAndPermissions rbacStore (str "u1")).permissions ↔
      p ∈ (getUserRolesAndPermissions
        { rbacStore with user_roles :=
          [{ user_id := str "u1", role_id := str "r2", assigned_by := str "su" },
           { user_id := str "u1", role_id := str "r1", assigned_by := str "su" }] }
        (str "u1")).permissions :=
  ⟨List.Perm.swap _ _ _,
   getUserRolesAndPermissions_order_independent rbacStore _ (str "u1")
     (List.Perm.swap _ _ _)⟩

/-! ### The authentication pipeline -/

/-- C5: in `authenticate`, a super user skips license validation entirely
and proceeds with `context.license` unset; a non-super user whose
company's license fails validation receives `403 Forbidden` carrying the
validator's reason, and the downstream handler (`next()`) is never
invoked. -/
theorem authenticate_superuser_skip_and_license_gate (c : CryptoPrims)
    (verifyTok : Str → Option JwtPayload) (now : Nat) (st : Store)
    (header t : Str) (pl : JwtPayload) (user : UserRow) (company : CompanyRow)
    (hh : header = str "Bearer " ++ t)
    (hvt : verifyTok t = some pl)
    (hu : findUser st pl.userId = some user)
    (hc : findCompany st user.company_id = some company) :
    (user.is_super_user = true →
      authenticate c verifyTok now st (some header) =
        (.proceed { user := user, company := company, tenant := tenantOf st user,
                    license := none,
                    permissions := contextPermissions st user.id }, st)) ∧
    (user.is_super_user = false →
      ∀ reason olic st2,
        validateLicense c now st company.license_key = (.invalid reason olic, st2) →
        authenticate c verifyTok now st (some header) =
          (.respond 403 (str "Invalid or expired license") (some reason), st2) ∧
        ∀ ctx, (authenticate c verifyTok now st (some header)).1 ≠
          AuthOutcome.proceed ctx) := by
  subst hh
  have htake : (str "Bearer " ++ t).take 7 = str "Bearer " := rfl
  have hdrop : (str "Bearer " ++ t).drop 7 = t := rfl
  unfold authenticate
  dsimp only
  rw [if_pos htake, hdrop, hvt]
  dsimp only
  rw [hu]
  dsimp only
  rw [hc]
  dsimp only
  constructor
  · intro hsu
    rw [if_pos hsu]
  · intro hsu reason olic st2 hval
    rw [if_neg (by rw [hsu]; exact Bool.false_ne_true), hval]
    exact ⟨rfl, fun ctx h => by cases h⟩

/-- C5 witness: the concrete super user proceeds without a license in
context; the concrete regular user is rejected with `403` and the
validator's reason. -/
theorem authenticate_superuser_skip_and_license_gate_witness :
    str "Bearer tsu" = str "Bearer " ++ str "tsu" ∧
    vtToy (str "tsu") = some (jwtOf (str "su")) ∧
    findUser pipeStore (jwtOf (str "su")).userId = some suRow ∧
    findCompany pipeStore suRow.company_id = some c1Row ∧
    authenticate toyCrypto vtToy 0 pipeStore (some (str "Bearer tsu")) =
      (.proceed { user := suRow, company := c1Row, tenant := tenantOf pipeStore suRow,
                  license := none,
                  permissions := contextPermissions pipeStore suRow.id }, pipeStore) ∧
    authenticate toyCrypto vtToy 0 pipeStore (some (str "Bearer tu1")) =
      (.respond 403 (str "Invalid or expired license")
        (some (str "Invalid license format")), pipeStore) :=
  ⟨by decide, by decide, by decide, by decide,
   (authenticate_superuser_skip_and_license_gate toyCrypto vtToy 0 pipeStore
     (str "Bearer tsu") (str "tsu") (jwtOf (str "su")) suRow c1Row
     (by decide) (by decide) (by decide) (by decide)).1 (by decide),
   ((authenticate_superuser_skip_and_license_gate toyCrypto vtToy 0 pipeStore
     (str "Bearer tu1") (str "tu1") (jwtOf (str "u1")) u1Row c1Row
     (by decide) (by decide) (by decide) (by decide)).2 (by decide)
     (str "Invalid license format") none pipeStore (by decide)).1⟩

/-! ### Default-role seeding -/

theorem mem_insertSorted {α : Type} (le : α → α → Bool) (x a : α)
    (l : List α) : a ∈ insertSorted le x l ↔ a = x ∨ a ∈ l := by
  induction l with
  | nil => simp [insertSorted]
  | cons b rest ih =>
    by_cases hle : le x b = true
    · simp [insertSorted, hle]
    · simp only [insertSorted, if_neg hle, List.mem_cons, ih]
      tauto

theorem mem_sortByLe {α : Type} (le : α → α → Bool) (a : α) (l : List α) :
    a ∈ sortByLe le l ↔ a ∈ l := by
  induction l with
  | nil => simp [sortByLe]
  | cons b rest ih =>
    simp only [sortByLe, List.foldr_cons]
    rw [mem_insertSorted]
    simp only [List.mem_cons]
    rw [show List.foldr (insertSorted le) [] rest = sortByLe le rest from rfl, ih]

theorem filter_filter_subsume {α : Type} (p q : α → Bool) (l : List α)
    (h : ∀ a, p a = true → q a = true) : (l.filter q).filter p = l.filter p := by
  induction l with
  | nil => rfl
  | cons a rest ih =>
    by_cases hq : q a = true
    · rw [List.filter_cons_of_pos hq]
      by_cases hp : p a = true
      · rw [List.filter_cons_of_pos hp, List.filter_cons_of_pos hp, ih]
      · rw [List.filter_cons_of_neg (by simpa using hp),
          List.filter_cons_of_neg (by simpa using hp), ih]
    · have hp : ¬ p a = true := fun hpa => hq (h a hpa)
      rw [List.filter_cons_of_neg (by simpa using hq),
        List.filter_cons_of_neg (by simpa using hp), ih]

theorem createRole_roles (st : Store) (rid cid n d : Str) (pids : List Str) :
    (createRole st rid cid n d pids).roles =
      st.roles ++ [{ id := rid, company_id := cid, name := n, description := d }] := by
  unfold createRole assignPermissionsToRole
  split <;> rfl

theorem createRole_permissions (st : Store) (rid cid n d : Str) (pids : List Str) :
    (createRole st rid cid n d pids).permissions = st.permissions := by
  unfold createRole assignPermissionsToRole
  split <;> rfl

theorem createRole_user_roles (st : Store) (rid cid n d : Str) (pids : List Str) :
    (createRole st rid cid n d pids).user_roles = st.user_roles := by
  unfold createRole assignPermissionsToRole
  split <;> rfl

theorem createRole_rp_filter_self (st : Store) (rid cid n d : Str) (pids : List Str)
    (hfresh : st.role_permissions.filter (fun rp => decide (rp.role_id = rid)) = []) :
    (createRole st rid cid n d pids).role_permissions.filter
        (fun rp => decide (rp.role_id = rid)) = pids.map (rpRow rid) := by
  unfold createRole assignPermissionsToRole
  dsimp only
  split
  · rw [List.filter_append]
    have h1 : ((st.role_permissions.filter
        (fun rp => decide (¬ rp.role_id = rid))).filter
          (fun rp => decide (rp.role_id = rid))) = [] := by
      rw [List.filter_eq_nil_iff]
      intro a ha
      have hmem := List.of_mem_filter ha
      simp at hmem ⊢
      exact hmem
    have h2 : ((pids.map (fun pid =>
        ({ role_id := rid, permission_id := pid } : RolePermissionRow))).filter
          (fun rp => decide (rp.role_id = rid))) =
        pids.map (fun pid =>
          ({ role_id := rid, permission_id := pid } : RolePermissionRow)) := by
      rw [List.filter_eq_self]
      intro a ha
      rcases List.mem_map.mp ha with ⟨pid, -, hpid⟩
      subst hpid; simp
    rw [h1, h2]
    simp [rpRow]
  · rename_i hlen
    have hnil : pids = [] := by
      cases pids with
      | nil => rfl
      | cons a l => simp at hlen
    subst hnil
    simpa using hfresh

theorem createRole_rp_filter_other (st : Store) (rid cid n d rid2 : Str)
    (pids : List Str) (hne : ¬ rid2 = rid) :
    (createRole st rid cid n d pids).role_permissions.filter
        (fun rp => decide (rp.role_id = rid2)) =
      st.role_permissions.filter (fun rp => decide (rp.role_id = rid2)) := by
  unfold createRole assignPermissionsToRole
  dsimp only
  split
  · rw [List.filter_append]
    have h1 : ((st.role_permissions.filter
        (fun rp => decide (¬ rp.role_id = rid))).filter
          (fun rp => decide (rp.role_id = rid2))) =
        st.role_permissions.filter (fun rp => decide (rp.role_id = rid2)) := by
      apply filter_filter_subsume
      intro a ha
      simp at ha ⊢
      rw [ha]; exact hne
    have h2 : ((pids.map (fun pid =>
        ({ role_id := rid, permission_id := pid } : RolePermissionRow))).filter
          (fun rp => decide (rp.role_id = rid2))) = [] := by
      rw [List.filter_eq_nil_iff]
      intro a ha
      rcases List.mem_map.mp ha with ⟨pid, -, hpid⟩
      subst hpid; simpa using fun h => hne h.symm
    rw [h1, h2, List.append_nil]
  · rfl

theorem filter_id_eq_singleton (l : List PermissionRow)
    (h : (l.map (fun p => p.id)).Nodup) (q : PermissionRow) (hq : q ∈ l) :
    l.filter (fun p => decide (p.id = q.id)) = [q] := by
  induction l with
  | nil => simp at hq
  | cons a rest ih =>
    rw [List.map_cons, List.nodup_cons] at h
    rcases List.mem_cons.mp hq with haq | hrest
    · subst haq
      rw [List.filter_cons_of_pos (by simp)]
      have hrestnil : rest.filter (fun p => decide (p.id = q.id)) = [] := by
        rw [List.filter_eq_nil_iff]
        intro x hx
        simp only [decide_eq_true_eq]
        intro hid
        exact h.1 (hid ▸ List.mem_map_of_mem (fun p => p.id) hx)
      rw [hrestnil]
    · have hne : ¬ a.id = q.id := by
        intro he
        exact h.1 (by rw [he]; exact List.mem_map_of_mem _ hrest)
      rw [List.filter_cons_of_neg (by simpa using hne)]
      exact ih h.2 hrest

theorem findPerm_self_of_nodup (st : Store)
    (hpk : (st.permissions.map (fun p => p.id)).Nodup) (q : PermissionRow)
    (hq : q ∈ st.permissions) : findPerm st q.id = some q := by
  rw [findPerm, singleRow_eq_some]
  exact filter_id_eq_singleton st.permissions hpk q hq

theorem assignRoleToUser_rp (st : Store) (uid rid ab : Str) :
    (assignRoleToUser st uid rid ab).2.role_permissions = st.role_permissions := by
  unfold assignRoleToUser
  split <;> rfl

theorem assignRoleToUser_roles (st : Store) (uid rid ab : Str) :
    (assignRoleToUser st uid rid ab).2.roles = st.roles := by
  unfold assignRoleToUser
  split <;> rfl

theorem assignRoleToUser_permissions (st : Store) (uid rid ab : Str) :
    (assignRoleToUser st uid rid ab).2.permissions = st.permissions := by
  unfold assignRoleToUser
  split <;> rfl

theorem assignRoleToUser_fresh (st : Store) (uid rid ab : Str)
    (h : ∀ ur ∈ st.user_roles, ur.user_id ≠ uid) :
    (assignRoleToUser st uid rid ab).2.user_roles =
      st.user_roles ++ [{ user_id := uid, role_id := rid, assigned_by := ab }] := by
  unfold assignRoleToUser
  have hany : st.user_roles.any
      (fun ur => decide (ur.user_id = uid) && decide (ur.role_id = rid)) = false := by
    rw [List.any_eq_false]
    intro ur hur
    simp [h ur hur]
  rw [hany]
  rfl

theorem createDefaultRoles_roles (st : Store) (cid r1 r2 r3 : Str) :
    (createDefaultRoles st cid r1 r2 r3).roles =
      st.roles ++ [adminRoleRow r1 cid, operatorRoleRow r2 cid, viewerRoleRow r3 cid] := by
  unfold createDefaultRoles
  dsimp only
  rw [createRole_roles, createRole_roles, createRole_roles]
  simp [adminRoleRow, operatorRoleRow, viewerRoleRow]

theorem createDefaultRoles_permissions (st : Store) (cid r1 r2 r3 : Str) :
    (createDefaultRoles st cid r1 r2 r3).permissions = st.permissions := by
  unfold createDefaultRoles
  dsimp only
  rw [createRole_permissions, createRole_permissions, createRole_permissions]

theorem createDefaultRoles_user_roles (st : Store) (cid r1 r2 r3 : Str) :
    (createDefaultRoles st cid r1 r2 r3).user_roles = st.user_roles := by
  unfold createDefaultRoles
  dsimp only
  rw [createRole_user_roles, createRole_user_roles, createRole_user_roles]

theorem createDefaultRoles_rp_r1 (st : Store) (cid r1 r2 r3 : Str)
    (h12 : r1 ≠ r2) (h13 : r1 ≠ r3)
    (hfresh : st.role_permissions.filter (fun rp => decide (rp.role_id = r1)) = []) :
    (createDefaultRoles st cid r1 r2 r3).role_permissions.filter
        (fun rp => decide (rp.role_id = r1)) =
      ((getAllPermissions st).map (fun p => p.id)).map (rpRow r1) := by
  unfold createDefaultRoles
  dsimp only
  rw [createRole_rp_filter_other _ _ _ _ _ _ _ h13,
    createRole_rp_filter_other _ _ _ _ _ _ _ h12,
    createRole_rp_filter_self _ _ _ _ _ _ hfresh]

theorem createDefaultRoles_rp_r2 (st : Store) (cid r1 r2 r3 : Str)
    (h12 : r1 ≠ r2) (h23 : r2 ≠ r3)
    (hfresh : st.role_permissions.filter (fun rp => decide (rp.role_id = r2)) = []) :
    (createDefaultRoles st cid r1 r2 r3).role_permissions.filter
        (fun rp => decide (rp.role_id = r2)) =
      (((getAllPermissions st).filter operatorPermFilter).map (fun p => p.id)).map
        (rpRow r2) := by
  unfold createDefaultRoles
  dsimp only
  rw [createRole_rp_filter_other _ _ _ _ _ _ _ h23,
    createRole_rp_filter_self _ _ _ _ _ _
      (by rw [createRole_rp_filter_other _ _ _ _ _ _ _ (fun h => h12 h.symm)]
          exact hfresh)]

theorem createDefaultRoles_rp_r3 (st : Store) (cid r1 r2 r3 : Str)
    (h13 : r1 ≠ r3) (h23 : r2 ≠ r3)
    (hfresh : st.role_permissions.filter (fun rp => decide (rp.role_id = r3)) = []) :
    (createDefaultRoles st cid r1 r2 r3).role_permissions.filter
        (fun rp => decide (rp.role_id = r3)) =
      (((getAllPermissions st).filter viewerPermFilter).map (fun p => p.id)).map
        (rpRow r3) := by
  unfold createDefaultRoles
  dsimp only
  rw [createRole_rp_filter_self _ _ _ _ _ _
      (by rw [createRole_rp_filter_other _ _ _ _ _ _ _ (fun h => h23 h.symm),
            createRole_rp_filter_other _ _ _ _ _ _ _ (fun h => h13 h.symm)]
          exact hfresh)]

/-- C8 (amended): `createDefaultRoles` creates exactly three roles —
Admin granted every permission of the global catalog, Operator granted
exactly the permissions whose *name contains* `'.read'` or `'.create'` as
a substring plus the allow-list `api.use` / `user.read`, and Viewer
granted exactly those whose name contains `'.read'` plus `api.use` (the
source filters by substring on the name, not by equality of the action
column) — and a user assigned the Admin role resolves to the entire
global catalog (by permission identity). -/
theorem createDefaultRoles_seeds_three_roles (st : Store) (cid r1 r2 r3 uid ab : Str)
    (h12 : r1 ≠ r2) (h13 : r1 ≠ r3) (h23 : r2 ≠ r3)
    (hrp : ∀ rp ∈ st.role_permissions,
      rp.role_id ≠ r1 ∧ rp.role_id ≠ r2 ∧ rp.role_id ≠ r3)
    (hroles : ∀ role ∈ st.roles, role.id ≠ r1)
    (hur : ∀ ur ∈ st.user_roles, ur.user_id ≠ uid)
    (hpk : (st.permissions.map (fun p => p.id)).Nodup) :
    (createDefaultRoles st cid r1 r2 r3).roles =
      st.roles ++ [adminRoleRow r1 cid, operatorRoleRow r2 cid, viewerRoleRow r3 cid] ∧
    (createDefaultRoles st cid r1 r2 r3).role_permissions.filter
        (fun rp => decide (rp.role_id = r1)) =
      ((getAllPermissions st).map (fun p => p.id)).map (rpRow r1) ∧
    (createDefaultRoles st cid r1 r2 r3).role_permissions.filter
        (fun rp => decide (rp.role_id = r2)) =
      (((getAllPermissions st).filter operatorPermFilter).map (fun p => p.id)).map
        (rpRow r2) ∧
    (createDefaultRoles st cid r1 r2 r3).role_permissions.filter
        (fun rp => decide (rp.role_id = r3)) =
      (((getAllPermissions st).filter viewerPermFilter).map (fun p => p.id)).map
        (rpRow r3) ∧
    ∀ i, (∃ p ∈ (getUserRolesAndPermissions
        (assignRoleToUser (createDefaultRoles st cid r1 r2 r3) uid r1 ab).2
        uid).permissions, p.id = i) ↔
      ∃ q ∈ st.permissions, q.id = i := by
  have hfresh1 : st.role_permissions.filter
      (fun rp => decide (rp.role_id = r1)) = [] := by
    rw [List.filter_eq_nil_iff]
    intro rp hm
    simp [(hrp rp hm).1]
  have hfresh2 : st.role_permissions.filter
      (fun rp => decide (rp.role_id = r2)) = [] := by
    rw [List.filter_eq_nil_iff]
    intro rp hm
    simp [(hrp rp hm).2.1]
  have hfresh3 : st.role_permissions.filter
      (fun rp => decide (rp.role_id = r3)) = [] := by
    rw [List.filter_eq_nil_iff]
    intro rp hm
    simp [(hrp rp hm).2.2]
  have hb1 := createDefaultRoles_rp_r1 st cid r1 r2 r3 h12 h13 hfresh1
  refine ⟨createDefaultRoles_roles st cid r1 r2 r3, hb1,
    createDefaultRoles_rp_r2 st cid r1 r2 r3 h12 h23 hfresh2,
    createDefaultRoles_rp_r3 st cid r1 r2 r3 h13 h23 hfresh3, ?_⟩
  have hst'ur : (createDefaultRoles st cid r1 r2 r3).user_roles = st.user_roles :=
    createDefaultRoles_user_roles st cid r1 r2 r3
  have hur'' : (assignRoleToUser (createDefaultRoles st cid r1 r2 r3) uid r1 ab).2.user_roles =
      st.user_roles ++ [{ user_id := uid, role_id := r1, assigned_by := ab }] := by
    rw [assignRoleToUser_fresh _ _ _ _ (by rw [hst'ur]; exact hur), hst'ur]
  have hrp'' : (assignRoleToUser (createDefaultRoles st cid r1 r2 r3) uid r1 ab).2.role_permissions =
      (createDefaultRoles st cid r1 r2 r3).role_permissions :=
    assignRoleToUser_rp _ _ _ _
  have hpeq : (assignRoleToUser (createDefaultRoles st cid r1 r2 r3) uid r1 ab).2.permissions =
      st.permissions := by
    rw [assignRoleToUser_permissions, createDefaultRoles_permissions]
  have hfindP : ∀ k, findPerm
      (assignRoleToUser (createDefaultRoles st cid r1 r2 r3) uid r1 ab).2 k =
      findPerm st k := by
    intro k; unfold findPerm; rw [hpeq]
  have hroles'' : (assignRoleToUser (createDefaultRoles st cid r1 r2 r3) uid r1 ab).2.roles =
      st.roles ++ [adminRoleRow r1 cid, operatorRoleRow r2 cid, viewerRoleRow r3 cid] := by
    rw [assignRoleToUser_roles, createDefaultRoles_roles]
  have hfindR : findRole
      (assignRoleToUser (createDefaultRoles st cid r1 r2 r3) uid r1 ab).2 r1 =
      some (adminRoleRow r1 cid) := by
    unfold findRole
    rw [hroles'', List.filter_append]
    have hnilroles : st.roles.filter (fun r => decide (r.id = r1)) = [] := by
      rw [List.filter_eq_nil_iff]
      intro role hm
      simp [hroles role hm]
    have h21 : ¬ r2 = r1 := fun h => h12 h.symm
    have h31 : ¬ r3 = r1 := fun h => h13 h.symm
    have hthree : ([adminRoleRow r1 cid, operatorRoleRow r2 cid,
        viewerRoleRow r3 cid].filter (fun r => decide (r.id = r1))) =
        [adminRoleRow r1 cid] := by
      simp [adminRoleRow, operatorRoleRow, viewerRoleRow, List.filter, h21, h31]
    rw [hnilroles, hthree]
    rfl
  intro i
  constructor
  · rintro ⟨p, hp, hpid⟩
    rw [mem_resolvedPermissions] at hp
    obtain ⟨ur, hurm, huid, -, rp, hrpm, hrid, hfp⟩ := hp
    rw [hur''] at hurm
    rcases List.mem_append.mp hurm with hold | hnew
    · exact absurd huid (hur ur hold)
    · have hureq : ur = { user_id := uid, role_id := r1, assigned_by := ab } := by
        simpa using hnew
      subst hureq
      rw [hrp''] at hrpm
      have hmemfilter : rp ∈ (createDefaultRoles st cid r1 r2 r3).role_permissions.filter
          (fun rp => decide (rp.role_id = r1)) :=
        List.mem_filter.mpr ⟨hrpm, by simpa using hrid⟩
      rw [hb1] at hmemfilter
      rcases List.mem_map.mp hmemfilter with ⟨pid, hpidA, hrpeq⟩
      subst hrpeq
      rw [hfindP] at hfp
      have hpmem : p ∈ st.permissions := by
        rw [findPerm, singleRow_eq_some] at hfp
        exact List.mem_of_mem_filter (by rw [hfp]; simp)
      exact ⟨p, hpmem, hpid⟩
  · rintro ⟨q, hq, hqid⟩
    refine ⟨q, ?_, hqid⟩
    rw [mem_resolvedPermissions]
    have hqA : q.id ∈ (getAllPermissions st).map (fun p => p.id) :=
      List.mem_map_of_mem _ ((mem_sortByLe permOrderLe q st.permissions).mpr hq)
    refine ⟨{ user_id := uid, role_id := r1, assigned_by := ab }, ?_, rfl,
      ⟨adminRoleRow r1 cid, hfindR⟩, rpRow r1 q.id, ?_, rfl, ?_⟩
    · rw [hur'']; simp
    · rw [hrp'']
      refine List.mem_of_mem_filter (p := fun rp => decide (rp.role_id = r1)) ?_
      rw [hb1]
      exact List.mem_map_of_mem _ hqA
    · rw [hfindP]
      exact findPerm_self_of_nodup st hpk q hq

/-- C8 witness: the concrete store with catalog `{user.read, tenant.create}`
seeded with three fresh role ids; the user assigned the Admin role
resolves to the whole catalog. -/
theorem createDefaultRoles_seeds_three_roles_witness :
    ((str "nr1" : Str) ≠ str "nr2" ∧ (str "nr1" : Str) ≠ str "nr3" ∧
      (str "nr2" : Str) ≠ str "nr3" ∧
      (rbacStore.permissions.map (fun p => p.id)).Nodup) ∧
    (createDefaultRoles rbacStore (str "c9") (str "nr1") (str "nr2") (str "nr3")).roles =
      rbacStore.roles ++ [adminRoleRow (str "nr1") (str "c9"),
        operatorRoleRow (str "nr2") (str "c9"), viewerRoleRow (str "nr3") (str "c9")] ∧
    ∀ i, (∃ p ∈ (getUserRolesAndPermissions
        (assignRoleToUser (createDefaultRoles rbacStore (str "c9") (str "nr1")
          (str "nr2") (str "nr3")) (str "u9") (str "nr1") (str "su")).2
        (str "u9")).permissions, p.id = i) ↔
      ∃ q ∈ rbacStore.permissions, q.id = i :=
  ⟨⟨by decide, by decide, by decide, by decide⟩,
   (createDefaultRoles_seeds_three_roles rbacStore (str "c9") (str "nr1") (str "nr2")
     (str "nr3") (str "u9") (str "su") (by decide) (by decide) (by decide)
     (by decide) (by decide) (by decide) (by decide)).1,
   (createDefaultRoles_seeds_three_roles rbacStore (str "c9") (str "nr1") (str "nr2")
     (str "nr3") (str "u9") (str "su") (by decide) (by decide) (by decide)
     (by decide) (by decide) (by decide) (by decide)).2.2.2.2⟩

/-- C8 counterexample to the claim as stated: with a catalog containing the
single permission `doc.ready` (action `ready`), the code grants it to the
Operator role — its *name* contains the substring `'.read'` — although the
claimed action-based description (`action` is `read` or `create`, plus the
allow-list `api.use` / `user.read`) selects nothing. -/
theorem createDefaultRoles_action_filter_counterexample :
    ((createDefaultRoles cdStore (str "c1") (str "r1") (str "r2")
        (str "r3")).role_permissions.filter
      (fun rp => decide (rp.role_id = str "r2"))) =
      [rpRow (str "r2") (str "p1")] ∧
    (cdStore.permissions.filter (fun p =>
      decide (p.action = str "read") || decide (p.action = str "create") ||
      decide (p.name = str "api.use") || decide (p.name = str "user.read"))) = [] := by
  exact ⟨by decide, by decide⟩

/-! ### The single-super-user invariant -/

theorem countSuper_append_nonsuper (st : Store) (u : UserRow)
    (hu : u.is_super_user = false) :
    countSuper { st with users := st.users ++ [u] } = countSuper st := by
  unfold countSuper
  simp [List.filter_append, hu]

theorem singleRow_none_short {α : Type} (l : List α)
    (hn : singleRow l = none) (hl : l.length ≤ 1) : l = [] := by
  match l with
  | [] => rfl
  | [a] => simp [singleRow] at hn
  | a :: b :: rest => simp at hl

theorem applyOp_preserves_single_super (st : Store) (op : AuthOp)
    (h : countSuper st ≤ 1) : countSuper (applyOp st op) ≤ 1 := by
  cases op with
  | register uid e ph fn cid oa =>
    rw [show applyOp st (.register uid e ph fn cid oa) =
      register st uid e ph fn cid oa from rfl]
    unfold register
    rw [countSuper_append_nonsuper st _ rfl]
    exact h
  | createUser uid e ph fn cid tid oa =>
    rw [show applyOp st (.createUser uid e ph fn cid tid oa) =
      createUser st uid e ph fn cid tid oa from rfl]
    unfold createUser
    rw [countSuper_append_nonsuper st _ rfl]
    exact h
  | initializeSuperUser cid uid e ph =>
    rw [show applyOp st (.initializeSuperUser cid uid e ph) =
      (initializeSuperUser st cid uid e ph).2 from rfl]
    unfold initializeSuperUser
    cases hs : singleRow (st.users.filter (fun u => u.is_super_user)) with
    | some u => exact h
    | none =>
      have hempty : st.users.filter (fun u => u.is_super_user) = [] :=
        singleRow_none_short _ hs h
      dsimp only
      unfold countSuper
      simp [List.filter_append, hempty]

/-- C9: at most one platform super-identity ever exists.  Starting from a
store with at most one super user, every sequence of `register`,
`createUser` and `initializeSuperUser` operations preserves the bound:
the first two always store `is_super_user: false`, and
`initializeSuperUser` refuses to create a second super user when one
already exists. -/
theorem single_super_user_invariant (ops : List AuthOp) :
    ∀ st : Store, countSuper st ≤ 1 → countSuper (applyOps st ops) ≤ 1 := by
  induction ops with
  | nil => intro st h; exact h
  | cons op rest ih =>
    intro st h
    exact ih (applyOp st op) (applyOp_preserves_single_super st op h)

/-- C9 witness: a concrete operation sequence — a registration, a
successful super-user bootstrap, a second (refused) bootstrap and another
user creation — keeps the super-user count at most one. -/
theorem single_super_user_invariant_witness :
    countSuper emptyStore ≤ 1 ∧
    countSuper (applyOps emptyStore
      [AuthOp.register (str "u1") (str "u@x.com") (str "h") (str "U") (str "c1") true,
       AuthOp.initializeSuperUser (str "sc") (str "su") (str "s@x.com") (str "h"),
       AuthOp.initializeSuperUser (str "sc2") (str "su2") (str "t@x.com") (str "h"),
       AuthOp.createUser (str "u2") (str "v@x.com") (str "h") (str "V") (str "c1")
         none false]) ≤ 1 :=
  ⟨by decide,
   single_super_user_invariant
     [AuthOp.register (str "u1") (str "u@x.com") (str "h") (str "U") (str "c1") true,
      AuthOp.initializeSuperUser (str "sc") (str "su") (str "s@x.com") (str "h"),
      AuthOp.initializeSuperUser (str "sc2") (str "su2") (str "t@x.com") (str "h"),
      AuthOp.createUser (str "u2") (str "v@x.com") (str "h") (str "V") (str "c1")
        none false]
     emptyStore (by decide)⟩

end Neemify
